import Mathlib

/-!
Verification of the interactive annotation engine of the Open-PDF-Editor
single-page application (src/app.component.ts, second `AppComponent`
definition, lines 1102-2538, which is the one all cited line ranges refer
to).

Numbers in the TypeScript source are JavaScript numbers used here for
coordinates, sizes and scales; the embedding uses `ℚ` for all of them
(the interesting operations are +, -, *, /, min, max and comparisons,
which are exact on the inputs the claims use), except for the watermark
placement where exact trigonometry over `ℝ` is required.

The per-page model `annots : List (List Annot)` corresponds to
`annotations: Annotation[][]` (one ordered list per page, in lockstep with
`pageOrder`).  History snapshots are deep copies via
`JSON.parse(JSON.stringify(...))` in the source; in the pure embedding a
snapshot is just the value itself.
-/

namespace OpenPdfEditor

/-- A 2-D point, document space (`{x, y}` in the source). -/
structure Pt where
  x : ℚ
  y : ℚ
deriving DecidableEq, Repr

/-- The tagged union `Annotation = TextAnnotation | DrawAnnotation |
ImageAnnotation` (lines 1109-1139).  `origAspect` is the field
`originalAspectRatio` of `ImageAnnotation`. -/
inductive Annot where
  | text (x y : ℚ) (txt : String) (size : ℚ) (color : String) (font : String)
      (bold : Bool) (width height : ℚ)
  | draw (path : List Pt) (color : String) (lineWidth : ℚ)
  | image (x y width height : ℚ) (imageData : String) (origAspect : ℚ)
deriving DecidableEq, Repr

/-- The whole per-page model: `annotations: Annotation[][]`. -/
abbrev Model := List (List Annot)

/-! ## Export mapper (savePdf, lines 2486-2506)

For each page the exported drawing calls for one annotation.  Only the
geometry actually passed to the pdf-lib draw call is recorded; color and
font embedding are collaborator concerns not referenced by any claim. -/

/-- One emitted pdf-lib draw call of the annotation loop of `savePdf`. -/
inductive PdfDrawOp where
  | drawImage (x y width height : ℚ)
  | drawText (x y : ℚ) (txt : String) (size lineHeight : ℚ)
  | drawSvgPath (path : List Pt) (lineWidth : ℚ)
deriving DecidableEq, Repr

/-- The annotation loop body of `savePdf` (lines 2491-2504):
`drawImage` at `y = pdfPageHeight - ann.y - ann.height`,
`drawText` at `y = pdfPageHeight - ann.y - ann.size` with
`lineHeight = ann.size * 1.2`, and for a draw annotation an SVG path
whose points are each flipped to `(p.x, pdfPageHeight - p.y)`. -/
def exportAnnot (pdfPageHeight : ℚ) : Annot → PdfDrawOp
  | .image x y w h _ _ => .drawImage x (pdfPageHeight - y - h) w h
  | .text x y t size _ _ _ _ _ =>
      .drawText x (pdfPageHeight - y - size) t size (size * 1.2)
  | .draw path _ lw =>
      .drawSvgPath (path.map fun p => ⟨p.x, pdfPageHeight - p.y⟩) lw

/-! ## Zoom (lines 1620-1621) -/

/-- `zoomIn = () => this.scale.update(s => Math.min(5, s + 0.25))`. -/
def zoomIn (s : ℚ) : ℚ := min 5 (s + 0.25)

/-- `zoomOut = () => this.scale.update(s => Math.max(0.25, s - 0.25))`. -/
def zoomOut (s : ℚ) : ℚ := max 0.25 (s - 0.25)

/-- A user zoom gesture. -/
inductive ZoomOp where
  | zin
  | zout
deriving DecidableEq, Repr

/-- Apply one zoom operation to the `scale` signal value. -/
def applyZoom : ZoomOp → ℚ → ℚ
  | .zin, s => zoomIn s
  | .zout, s => zoomOut s

/-- Run a finite sequence of zoom operations starting from scale `s`. -/
def runZoom : List ZoomOp → ℚ → ℚ
  | [], s => s
  | op :: ops, s => runZoom ops (applyZoom op s)

/-! ## Editor state and history manager -/

/-- The `activeTab` signal values (line 1182). -/
inductive Tab where
  | edit
  | organize
  | security
deriving DecidableEq, Repr

/-- The `textEditingState` signal payload `{x, y, width, text}` (line 1250). -/
structure TextBuf where
  x : ℚ
  y : ℚ
  width : ℚ
  txt : String
deriving DecidableEq, Repr

/-- The `textSettings` signal payload (lines 1102-1107). -/
structure TextSettings where
  font : String
  size : ℚ
  color : String
  bold : Bool
deriving DecidableEq, Repr

/-- The component state the claims touch: the per-page model, the two
history stacks, the selection index (`selectedAnnotationIndex`, -1 means
none), page order, current page number (1-based page id), page count,
active tab, load flag, the text-edit overlay state, the zoom scale and
device pixel ratio, and an abstract identity for the loaded pdf-lib
document handle. -/
@[ext]
structure EditorSt where
  annots : Model
  undoStack : List Model
  redoStack : List Model
  selIdx : Int
  pageOrder : List Nat
  currentPageNum : Nat
  totalPages : Nat
  activeTab : Tab
  isPdfLoaded : Bool
  isEditingText : Bool
  textEditingState : Option TextBuf
  textSettings : TextSettings
  scale : ℚ
  pixelRatio : ℚ
  pdfLibDocId : Nat
deriving DecidableEq, Repr

/-- The commit pattern shared by `addAnnotation` (lines 1847-1856), the
removal branch of `onDeleteKeyPressed` (1858-1873) and the in-place edit
branch of `finalizeTextAnnotation` (2071-2086): push a deep snapshot of
the current model onto the undo stack, clear the redo stack, and apply
the mutation `f` to the model. -/
def commit (f : Model → Model) (s : EditorSt) : EditorSt :=
  { s with
    annots := f s.annots
    undoStack := s.undoStack ++ [s.annots]
    redoStack := [] }

/-- A sequence of committed mutations, applied left to right. -/
def commitMany : List (Model → Model) → EditorSt → EditorSt
  | [], s => s
  | f :: fs, s => commitMany fs (commit f s)

/-- `undo()` (lines 1879-1885): if the undo stack is non-empty, push the
current model onto the redo stack, install the top undo snapshot, pop it,
and reset the selection. -/
def undo (s : EditorSt) : EditorSt :=
  match s.undoStack.getLast? with
  | none => s
  | some lastState =>
    { s with
      annots := lastState
      undoStack := s.undoStack.dropLast
      redoStack := s.redoStack ++ [s.annots]
      selIdx := -1 }

/-- `redo()` (lines 1886-1892), symmetric to `undo`. -/
def redo (s : EditorSt) : EditorSt :=
  match s.redoStack.getLast? with
  | none => s
  | some nextState =>
    { s with
      annots := nextState
      undoStack := s.undoStack ++ [s.annots]
      redoStack := s.redoStack.dropLast
      selIdx := -1 }

/-- The model after applying a list of mutations in order. -/
def applyAll (m : Model) : List (Model → Model) → Model
  | [] => m
  | f :: fs => applyAll (f m) fs

/-- The snapshots pushed by `commitMany`: the model just before each
mutation, in order. -/
def prefixModels (m : Model) : List (Model → Model) → List Model
  | [] => []
  | f :: fs => m :: prefixModels (f m) fs

/-- A concrete annotation for counterexample states. -/
def cexAnnot : Annot :=
  .text 0 0 "a" 16 "#000000" "Helvetica" false 10 20

/-- A concrete editor state: one page, no annotations, empty history. -/
def cexSt : EditorSt :=
  { annots := [[]]
    undoStack := []
    redoStack := []
    selIdx := -1
    pageOrder := [1]
    currentPageNum := 1
    totalPages := 1
    activeTab := .edit
    isPdfLoaded := true
    isEditingText := false
    textEditingState := none
    textSettings := ⟨"Helvetica", 16, "#000000", false⟩
    scale := 1.5
    pixelRatio := 1
    pdfLibDocId := 0 }

/-! ## Page reordering (reorderPages, lines 1903-1908) -/

/-- JS `splice(n, 0, a)`: insert `a` at index `n`, clamped to the end of
the list when `n` exceeds the length (JS clamps the start index). -/
def insertClamped (a : α) : Nat → List α → List α
  | _, [] => [a]
  | 0, x :: xs => a :: x :: xs
  | n + 1, x :: xs => x :: insertClamped a n xs

/-- The splice pair of `reorderPages` (lines 1903-1908), applied to one
list: return unchanged when `dropIndex` equals `dragIndex` or
`dragIndex + 1` (the early return), otherwise remove the element at
`dragIndex` (`splice(dragIndex, 1)`) and re-insert it at
`adjustedDropIndex = dragIndex < dropIndex ? dropIndex - 1 : dropIndex`.
A `dragIndex` out of range is a no-op here (in the source it would
splice in `undefined`; unreachable, since `dragIndex` always indexes an
existing thumbnail). -/
def spliceMove (dragIndex dropIndex : Nat) (l : List α) : List α :=
  if dropIndex = dragIndex ∨ dropIndex = dragIndex + 1 then l
  else
    match l[dragIndex]? with
    | none => l
    | some movedPage =>
        insertClamped movedPage
          (if dragIndex < dropIndex then dropIndex - 1 else dropIndex)
          (l.eraseIdx dragIndex)

/-- `reorderPages(dragIndex, dropIndex)`: the identical splice is applied
to the `pageOrder` signal and to the `annotations` signal. -/
def reorderPages (dragIndex dropIndex : Nat) (s : EditorSt) : EditorSt :=
  { s with
    pageOrder := spliceMove dragIndex dropIndex s.pageOrder
    annots := spliceMove dragIndex dropIndex s.annots }

/-- A distinct draw annotation used to label per-page lists. -/
def annTag (c : String) : Annot := .draw [] c 1

/-- A concrete 4-page state with distinct singleton annotation lists. -/
def reorder4St : EditorSt :=
  { cexSt with
    pageOrder := [1, 2, 3, 4]
    annots := [[annTag "0"], [annTag "1"], [annTag "2"], [annTag "3"]]
    totalPages := 4 }

/-! ## Image resize (onMouseMove, lines 1763-1784, resize branch) -/

/-- The `dragMode === 'resize'` branch of `onMouseMove` (lines 1778-1781):
for an image annotation, candidate width = drag-start width + Δx; only
when `newWidth > 10` are the width and the aspect-locked height
(`newWidth * originalAspectRatio`) applied; any other annotation, or a
candidate width not exceeding 10, leaves the annotation unchanged. -/
def resizeImage (dragStartWidth dx : ℚ) : Annot → Annot
  | .image x y w h d asp =>
      if 10 < dragStartWidth + dx then
        .image x y (dragStartWidth + dx) ((dragStartWidth + dx) * asp) d asp
      else .image x y w h d asp
  | a => a

/-! ## Text edit finalization (lines 2045-2112) -/

/-- `cancelTextAnnotation()` (lines 2101-2105): close the overlay without
touching the model or the history. -/
def cancelTextAnnot (s : EditorSt) : EditorSt :=
  { s with isEditingText := false, textEditingState := none }

/-- `this.pageOrder().indexOf(this.currentPageNum())`, with JS's -1
modelled as `none`. -/
def pageIdxOf (s : EditorSt) : Option Nat :=
  s.pageOrder.findIdx? (· = s.currentPageNum)

/-- Replace the element at an index by `f` of it; out of range is a
no-op (the JS pattern `copy[i] = f(copy[i])` on a valid index). -/
def modifyIdx (f : α → α) : Nat → List α → List α
  | _, [] => []
  | 0, x :: xs => f x :: xs
  | n + 1, x :: xs => x :: modifyIdx f n xs

/-- `addAnnotation(annotation)` (lines 1847-1856): push a snapshot onto
the undo stack, clear the redo stack, and append the annotation to the
current page's list (found via `pageOrder.indexOf(currentPageNum)`; if
absent the model is left unchanged, as in the `pageIndex > -1` guard). -/
def addAnnot (a : Annot) (s : EditorSt) : EditorSt :=
  { s with
    undoStack := s.undoStack ++ [s.annots]
    redoStack := []
    annots :=
      match pageIdxOf s with
      | some i => modifyIdx (fun page => page ++ [a]) i s.annots
      | none => s.annots }

/-- `annToEdit` of `finalizeTextAnnotation` (line 2066):
`(editIndex > -1 && pageIndex > -1) ? annotations[pageIndex][editIndex]
: null`, with out-of-range indexing yielding `none`. -/
def annToEdit (s : EditorSt) : Option Annot :=
  if -1 < s.selIdx then
    match pageIdxOf s with
    | some pi => (s.annots.getD pi []).get? s.selIdx.toNat
    | none => none
  else none

/-- JS `String.prototype.trim()`: strip leading and trailing whitespace
(Lean's `String.trim` is not used because it does not reduce in the
kernel; this list-based version has the same behaviour on the ASCII
whitespace the claims exercise). -/
def jsTrim (s : String) : String :=
  String.mk ((s.toList.dropWhile Char.isWhitespace).reverse.dropWhile
    Char.isWhitespace).reverse

/-- `finalizeTextAnnotation()` (lines 2052-2099).  The canvas text
measurement `measureText` (lines 2114-2127) depends on the browser's
font metrics and is passed in as the oracle inputs `measuredW`,
`measuredH` (device pixels); the code divides them by
`totalScale = scale * pixelRatio`.  An empty or whitespace-only buffer
(or a missing one) routes to `cancelTextAnnotation`.  If the selected
annotation exists and is a text annotation, it is replaced in place
(position preserved, text/style/bounding box updated) through a history
commit; otherwise a new text annotation is inserted at the anchor via
`addAnnotation`. -/
def finalizeTextAnnot (measuredW measuredH : ℚ) (s : EditorSt) : EditorSt :=
  if s.isEditingText = false then s
  else
    match s.textEditingState with
    | none => cancelTextAnnot s
    | some st =>
      if jsTrim st.txt = "" then cancelTextAnnot s
      else
        let settings := s.textSettings
        let trimmedText := jsTrim st.txt
        let totalScale := s.scale * s.pixelRatio
        match annToEdit s with
        | some (.text x0 y0 _ _ _ _ _ _ _) =>
            { s with
              undoStack := s.undoStack ++ [s.annots]
              redoStack := []
              annots :=
                match pageIdxOf s with
                | some pi =>
                    modifyIdx
                      (fun page => page.set s.selIdx.toNat
                        (.text x0 y0 trimmedText settings.size settings.color
                          settings.font settings.bold
                          (measuredW / totalScale) (measuredH / totalScale)))
                      pi s.annots
                | none => s.annots
              isEditingText := false
              textEditingState := none }
        | _ =>
            { addAnnot
                (.text (st.x / s.scale) (st.y / s.scale) trimmedText
                  settings.size settings.color settings.font settings.bold
                  (measuredW / totalScale) (measuredH / totalScale)) s with
              isEditingText := false
              textEditingState := none }

/-! ## Page-structure operations and their confirmation guard -/

/-- `confirmAndProceedWithOrganize` (line 1972): when some page has a
non-empty annotation list, `confirm(...)` is shown; declining returns
without running the action.  `userConfirms` is the user's answer; the
second component records whether the confirm dialog was shown.  The
action argument abstracts the pdf-lib mutation-and-reload pipeline (a
document-mutator collaborator, out of scope). -/
def confirmAndProceedWithOrganize (userConfirms : Bool)
    (action : EditorSt → EditorSt) (s : EditorSt) : EditorSt × Bool :=
  if s.annots.any (fun p => !p.isEmpty) then
    if userConfirms then (action s, true) else (s, true)
  else (action s, false)

/-- `rotatePage` (lines 1974-1992): body wrapped in the organize guard. -/
def rotatePage (userConfirms : Bool) (action : EditorSt → EditorSt)
    (s : EditorSt) : EditorSt × Bool :=
  confirmAndProceedWithOrganize userConfirms action s

/-- `duplicatePage` (lines 2005-2028): body wrapped in the organize
guard. -/
def duplicatePage (userConfirms : Bool) (action : EditorSt → EditorSt)
    (s : EditorSt) : EditorSt × Bool :=
  confirmAndProceedWithOrganize userConfirms action s

/-- `processAndInsertPdf` (lines 1949-1962): body wrapped in the organize
guard. -/
def insertPdf (userConfirms : Bool) (action : EditorSt → EditorSt)
    (s : EditorSt) : EditorSt × Bool :=
  confirmAndProceedWithOrganize userConfirms action s

/-- `deletePage` (lines 1994-2004): refused outright (alert, no confirm
dialog) when the document has at most one page; otherwise the body is
wrapped in the organize guard. -/
def deletePage (userConfirms : Bool) (action : EditorSt → EditorSt)
    (s : EditorSt) : EditorSt × Bool :=
  if s.totalPages ≤ 1 then (s, false)
  else confirmAndProceedWithOrganize userConfirms action s

/-- `onDeleteKeyPressed()` (lines 1858-1877): with a selection
(`annIndex > -1`), commit removal of that index from the current page's
list (snapshot pushed, redo cleared, selection reset); with no selection,
route to `deletePage(currentPageNum)` only when the organize tab is
active, a document is loaded and it has more than one page. -/
def onDeleteKeyPressed (userConfirms : Bool)
    (deleteAction : EditorSt → EditorSt) (s : EditorSt) : EditorSt :=
  if -1 < s.selIdx then
    { s with
      undoStack := s.undoStack ++ [s.annots]
      redoStack := []
      annots :=
        match pageIdxOf s with
        | some pi =>
            modifyIdx (fun page => page.eraseIdx s.selIdx.toNat) pi s.annots
        | none => s.annots
      selIdx := -1 }
  else if s.activeTab = Tab.organize ∧ s.isPdfLoaded = true ∧
      1 < s.totalPages then
    (deletePage userConfirms deleteAction s).1
  else s

/-- A concrete image annotation (width 50, height 25, aspect 1/2). -/
def cexImg : Annot := .image 0 0 50 25 "img" (1 / 2)

/-- A concrete state in the middle of a text edit whose buffer is
whitespace-only. -/
def wsSt : EditorSt :=
  { cexSt with
    isEditingText := true
    textEditingState := some ⟨10, 10, 150, "   "⟩ }

/-- A concrete single-page state carrying one annotation. -/
def singlePageAnnSt : EditorSt := { cexSt with annots := [[cexAnnot]] }

/-- A concrete state with one annotation on the current page and that
annotation selected. -/
def delSelSt : EditorSt := { cexSt with annots := [[cexAnnot]], selIdx := 0 }

/-! ## Watermark placement: canvas preview vs. export (C9)

Both backends draw the watermark text centered on the page center and
rotated by 45 degrees.  A point of the watermark is parametrized by its
offset `(u, v)` from the text's center, measured in em units (multiples
of the font size) with `v` positive upward; this glyph model is shared
by the two pipelines (canvas `textAlign = center` / `textBaseline =
middle`, lines 1585-1586, and the export's centered anchor
`x = -textWidth / 2`, `y = yOffset = -(ascent - descent) / 2`, lines
2461-2475).  Placements are compared in visual page coordinates:
document points, origin bottom-left, y up. -/

/-- The 2-D rotation matrix `(x, y) ↦ (x cos θ - y sin θ, x sin θ +
y cos θ)` that both the canvas `rotate(θ)` (in its y-down frame) and
pdf-lib's `rotateDegrees` (in its y-up frame) apply. -/
noncomputable def rot (θ : ℝ) (p : ℝ × ℝ) : ℝ × ℝ :=
  (p.1 * Real.cos θ - p.2 * Real.sin θ, p.1 * Real.sin θ + p.2 * Real.cos θ)

/-- The live-preview placement (`drawWatermark`, lines 1561-1591, with
the canvas sizing of `renderPage`, lines 1402-1427): the canvas is
`pageW * scale * pixelRatio` by `pageH * scale * pixelRatio` device
pixels (y-down), the watermark font is `size * (scale / 1.5) *
pixelRatio` pixels (line 1583), and the context transform is
`translate(center); rotate(-π/4); translate(-center)` (lines 1575-1577)
around text drawn at the canvas center.  A glyph point at `(u, v)` em
sits at `(cx + u * fpx, cy - v * fpx)` before the transform; the device
result is converted back to visual page coordinates by dividing by
`scale * pixelRatio` and flipping y. -/
noncomputable def canvasWatermarkPoint
    (pageW pageH scale pixelRatio size u v : ℝ) : ℝ × ℝ :=
  let cx := pageW * scale * pixelRatio / 2
  let cy := pageH * scale * pixelRatio / 2
  let fpx := size * (scale / 1.5) * pixelRatio
  let d := rot (-(Real.pi / 4)) (u * fpx, -(v * fpx))
  ((cx + d.1) / (scale * pixelRatio),
    pageH - (cy + d.2) / (scale * pixelRatio))

/-- The export placement (`savePdf`, lines 2452-2484): operators
`translate(width / 2, height / 2); rotateDegrees(45)` and text anchored
so that its center is the origin of the rotated frame; a glyph point at
`(u, v)` em is `(u * size, v * size)` there.  Page space is already
y-up. -/
noncomputable def exportWatermarkPoint (pageW pageH size u v : ℝ) : ℝ × ℝ :=
  let d := rot (Real.pi / 4) (u * size, v * size)
  (pageW / 2 + d.1, pageH / 2 + d.2)

/-! ## Theorems -/

lemma zoom_step_bounds (op : ZoomOp) (s : ℚ) (h1 : 0.25 ≤ s) (h2 : s ≤ 5) :
    0.25 ≤ applyZoom op s ∧ applyZoom op s ≤ 5 := by
  cases op
  · exact ⟨le_min (by norm_num) (by linarith), min_le_left 5 (s + 0.25)⟩
  · exact ⟨le_max_left 0.25 (s - 0.25), max_le (by norm_num) (by linarith)⟩

lemma runZoom_bounds (ops : List ZoomOp) (s : ℚ) (h1 : 0.25 ≤ s) (h2 : s ≤ 5) :
    0.25 ≤ runZoom ops s ∧ runZoom ops s ≤ 5 := by
  induction ops generalizing s with
  | nil => exact ⟨h1, h2⟩
  | cons op ops ih =>
      obtain ⟨g1, g2⟩ := zoom_step_bounds op s h1 h2
      exact ih (applyZoom op s) g1 g2

lemma applyAll_append (fsA fsB : List (Model → Model)) (m : Model) :
    applyAll m (fsA ++ fsB) = applyAll (applyAll m fsA) fsB := by
  induction fsA generalizing m with
  | nil => rfl
  | cons f fsA ih => simp [applyAll, ih]

lemma prefixModels_append (fsA fsB : List (Model → Model)) (m : Model) :
    prefixModels m (fsA ++ fsB) =
      prefixModels m fsA ++ prefixModels (applyAll m fsA) fsB := by
  induction fsA generalizing m with
  | nil => rfl
  | cons f fsA ih => simp [prefixModels, applyAll, ih]

lemma prefixModels_length (fs : List (Model → Model)) (m : Model) :
    (prefixModels m fs).length = fs.length := by
  induction fs generalizing m with
  | nil => rfl
  | cons f fs ih => simp [prefixModels, ih]

lemma undo_pop (s : EditorSt) (U : List Model) (b : Model)
    (h : s.undoStack = U ++ [b]) :
    undo s = { s with annots := b, undoStack := U,
                      redoStack := s.redoStack ++ [s.annots], selIdx := -1 } := by
  unfold undo
  rw [h, List.getLast?_concat, List.dropLast_concat]

lemma redo_pop (s : EditorSt) (R : List Model) (b : Model)
    (h : s.redoStack = R ++ [b]) :
    redo s = { s with annots := b, undoStack := s.undoStack ++ [s.annots],
                      redoStack := R, selIdx := -1 } := by
  unfold redo
  rw [h, List.getLast?_concat, List.dropLast_concat]

lemma undo_iter (T : List Model) :
    ∀ (t : Model) (s : EditorSt) (U : List Model), s.undoStack = U ++ t :: T →
      undo^[T.length + 1] s =
        { s with annots := t, undoStack := U,
                 redoStack := s.redoStack ++ s.annots :: T.reverse,
                 selIdx := -1 } := by
  induction T using List.reverseRecOn with
  | nil =>
      intro t s U h
      simpa using undo_pop s U t h
  | append_singleton T' b ih =>
      intro t s U h
      have hlen : (T' ++ [b]).length + 1 = T'.length + 1 + 1 := by simp
      rw [hlen, Function.iterate_succ_apply]
      rw [undo_pop s (U ++ t :: T') b (by simp [h])]
      rw [ih t _ U rfl]
      simp

lemma redo_iter (T : List Model) :
    ∀ (t : Model) (s : EditorSt) (R : List Model), s.redoStack = R ++ t :: T →
      redo^[T.length + 1] s =
        { s with annots := t,
                 undoStack := s.undoStack ++ s.annots :: T.reverse,
                 redoStack := R, selIdx := -1 } := by
  induction T using List.reverseRecOn with
  | nil =>
      intro t s R h
      simpa using redo_pop s R t h
  | append_singleton T' b ih =>
      intro t s R h
      have hlen : (T' ++ [b]).length + 1 = T'.length + 1 + 1 := by simp
      rw [hlen, Function.iterate_succ_apply]
      rw [redo_pop s (R ++ t :: T') b (by simp [h])]
      rw [ih t _ R rfl]
      simp

lemma commitMany_spec (fs : List (Model → Model)) :
    ∀ s : EditorSt, fs ≠ [] →
      commitMany fs s =
        { s with annots := applyAll s.annots fs,
                 undoStack := s.undoStack ++ prefixModels s.annots fs,
                 redoStack := [] } := by
  induction fs with
  | nil => intro s h; exact absurd rfl h
  | cons f fs ih =>
      intro s _
      by_cases hfs : fs = []
      · subst hfs
        simp [commitMany, commit, applyAll, prefixModels]
      · rw [show commitMany (f :: fs) s = commitMany fs (commit f s) from rfl,
            ih (commit f s) hfs]
        simp [commit, applyAll, prefixModels]

lemma undo_redo_k (fsA fsB' : List (Model → Model)) (g : Model → Model)
    (s : EditorSt) :
    (undo^[fsB'.length + 1] (commitMany (fsA ++ g :: fsB') s)).annots =
      applyAll s.annots fsA ∧
    (redo^[fsB'.length + 1]
        (undo^[fsB'.length + 1] (commitMany (fsA ++ g :: fsB') s))).annots =
      applyAll s.annots (fsA ++ g :: fsB') ∧
    (undo^[fsB'.length + 1] (commitMany (fsA ++ g :: fsB') s)).selIdx = -1 ∧
    (redo^[fsB'.length + 1]
        (undo^[fsB'.length + 1] (commitMany (fsA ++ g :: fsB') s))).selIdx
      = -1 := by
  have hspec := commitMany_spec (fsA ++ g :: fsB') s (by simp)
  have hstack : (commitMany (fsA ++ g :: fsB') s).undoStack
      = (s.undoStack ++ prefixModels s.annots fsA)
        ++ applyAll s.annots fsA
           :: prefixModels (g (applyAll s.annots fsA)) fsB' := by
    rw [hspec]
    show s.undoStack ++ prefixModels s.annots (fsA ++ g :: fsB') = _
    rw [prefixModels_append]
    simp [prefixModels, applyAll, List.append_assoc]
  have hkT : fsB'.length + 1 =
      (prefixModels (g (applyAll s.annots fsA)) fsB').length + 1 := by
    rw [prefixModels_length]
  rw [hkT]
  rw [undo_iter (prefixModels (g (applyAll s.annots fsA)) fsB')
      (applyAll s.annots fsA) (commitMany (fsA ++ g :: fsB') s)
      (s.undoStack ++ prefixModels s.annots fsA) hstack]
  refine ⟨rfl, ?_, rfl, ?_⟩ <;>
  · rw [show (prefixModels (g (applyAll s.annots fsA)) fsB').length
        = (prefixModels (g (applyAll s.annots fsA)) fsB').reverse.length by simp]
    rw [redo_iter _ (applyAll s.annots (fsA ++ g :: fsB')) _ []
        (by rw [hspec])]

/-- C2 (amended): after N committed mutations, N undos restore the model
and the undo stack to their state before the first mutation; for
1 ≤ k ≤ N, k undos restore the model to its state just before the
(N-k+1)-th mutation (i.e. after the first N-k mutations), and k
subsequent redos restore the model to its state after the N-th mutation;
the selection index is -1 after every undo and redo. -/
theorem C2_history_roundtrip (fs : List (Model → Model)) (s : EditorSt)
    (hfs : fs ≠ []) (k : ℕ) (hk1 : 1 ≤ k) (hk2 : k ≤ fs.length) :
    (undo^[fs.length] (commitMany fs s)).annots = s.annots ∧
    (undo^[fs.length] (commitMany fs s)).undoStack = s.undoStack ∧
    (undo^[k] (commitMany fs s)).annots =
      applyAll s.annots (fs.take (fs.length - k)) ∧
    (redo^[k] (undo^[k] (commitMany fs s))).annots = applyAll s.annots fs ∧
    (undo^[k] (commitMany fs s)).selIdx = -1 ∧
    (redo^[k] (undo^[k] (commitMany fs s))).selIdx = -1 := by
  obtain ⟨f, fs0, rfl⟩ := List.exists_cons_of_ne_nil hfs
  refine ⟨?_, ?_, ?_⟩
  · -- N undos: model back to the initial one
    have hstack : (commitMany (f :: fs0) s).undoStack
        = s.undoStack ++ s.annots :: prefixModels (f s.annots) fs0 := by
      rw [commitMany_spec (f :: fs0) s (by simp)]
      show s.undoStack ++ prefixModels s.annots (f :: fs0) = _
      rfl
    have hN : (f :: fs0).length = (prefixModels (f s.annots) fs0).length + 1 := by
      rw [prefixModels_length]; rfl
    rw [hN, undo_iter (prefixModels (f s.annots) fs0) s.annots
        (commitMany (f :: fs0) s) s.undoStack hstack]
  · have hstack : (commitMany (f :: fs0) s).undoStack
        = s.undoStack ++ s.annots :: prefixModels (f s.annots) fs0 := by
      rw [commitMany_spec (f :: fs0) s (by simp)]
      show s.undoStack ++ prefixModels s.annots (f :: fs0) = _
      rfl
    have hN : (f :: fs0).length = (prefixModels (f s.annots) fs0).length + 1 := by
      rw [prefixModels_length]; rfl
    rw [hN, undo_iter (prefixModels (f s.annots) fs0) s.annots
        (commitMany (f :: fs0) s) s.undoStack hstack]
  · -- k undos and k redos
    have hsplit := List.take_append_drop ((f :: fs0).length - k) (f :: fs0)
    have hdroplen : ((f :: fs0).drop ((f :: fs0).length - k)).length = k := by
      rw [List.length_drop]
      omega
    obtain ⟨g, fsB', hgB⟩ :
        ∃ g fsB', (f :: fs0).drop ((f :: fs0).length - k) = g :: fsB' := by
      cases hB : (f :: fs0).drop ((f :: fs0).length - k) with
      | nil => rw [hB] at hdroplen; simp at hdroplen; omega
      | cons g fsB' => exact ⟨g, fsB', rfl⟩
    have hk : k = fsB'.length + 1 := by
      rw [← hdroplen, hgB]
      rfl
    have happ : (f :: fs0) =
        (f :: fs0).take ((f :: fs0).length - k) ++ g :: fsB' := by
      rw [← hgB, hsplit]
    have h := undo_redo_k ((f :: fs0).take ((f :: fs0).length - k)) fsB' g s
    rw [← hk, ← happ] at h
    exact ⟨h.1, h.2.1, h.2.2.1, h.2.2.2⟩

/-- C2 counterexample: the claim says k undos then k redos restore the
model to its state just before the (N-k+1)-th mutation.  With N = k = 1
that state is the initial model `[[]]`, but one undo followed by one redo
re-applies the mutation, so the model is `[[cexAnnot]]`, not `[[]]`. -/
theorem C2_counterexample :
    (redo^[1] (undo^[1]
        (commitMany [fun _ => [[cexAnnot]]] cexSt))).annots ≠ cexSt.annots := by
  decide

/-- Witness for `C2_history_roundtrip` at N = k = 1 with the single
committed mutation installing `[[cexAnnot]]`. -/
theorem C2_history_roundtrip_witness :
    (undo^[1] (commitMany [fun _ => [[cexAnnot]]] cexSt)).annots =
      cexSt.annots ∧
    (undo^[1] (commitMany [fun _ => [[cexAnnot]]] cexSt)).undoStack =
      cexSt.undoStack ∧
    (undo^[1] (commitMany [fun _ => [[cexAnnot]]] cexSt)).annots =
      applyAll cexSt.annots [] ∧
    (redo^[1] (undo^[1] (commitMany [fun _ => [[cexAnnot]]] cexSt))).annots =
      applyAll cexSt.annots [fun _ => [[cexAnnot]]] ∧
    (undo^[1] (commitMany [fun _ => [[cexAnnot]]] cexSt)).selIdx = -1 ∧
    (redo^[1] (undo^[1] (commitMany [fun _ => [[cexAnnot]]] cexSt))).selIdx
      = -1 :=
  C2_history_roundtrip [fun _ => [[cexAnnot]]] cexSt (by simp) 1 le_rfl le_rfl

lemma zip_getElem? (l : List α) (m : List β) (h : l.length = m.length)
    (i : Nat) :
    (l.zip m)[i]? = match l[i]?, m[i]? with
      | some a, some b => some (a, b)
      | _, _ => none := by
  induction l generalizing m i with
  | nil =>
      cases m with
      | nil => simp
      | cons b bs => simp at h
  | cons a as ih =>
      cases m with
      | nil => simp at h
      | cons b bs =>
          cases i with
          | zero => simp [List.zip_cons_cons]
          | succ i =>
              simp only [List.zip_cons_cons, List.getElem?_cons_succ]
              exact ih bs (by simpa using h) i

lemma zip_eraseIdx (l : List α) (m : List β) (i : Nat) :
    (l.zip m).eraseIdx i = (l.eraseIdx i).zip (m.eraseIdx i) := by
  induction l generalizing m i with
  | nil => simp
  | cons a as ih =>
      cases m with
      | nil => simp
      | cons b bs =>
          cases i with
          | zero => simp [List.eraseIdx, ← List.zip_eq_zipWith]
          | succ i => simp [List.eraseIdx, ih, ← List.zip_eq_zipWith]

lemma zip_insertClamped (l : List α) (m : List β) (h : l.length = m.length)
    (a : α) (b : β) (n : Nat) :
    insertClamped (a, b) n (l.zip m) =
      (insertClamped a n l).zip (insertClamped b n m) := by
  induction l generalizing m n with
  | nil =>
      cases m with
      | nil => cases n <;> simp [insertClamped]
      | cons c cs => simp at h
  | cons c cs ih =>
      cases m with
      | nil => simp at h
      | cons d ds =>
          cases n with
          | zero => simp [insertClamped, ← List.zip_eq_zipWith]
          | succ n =>
              simp only [List.zip_cons_cons, insertClamped, List.cons.injEq,
                true_and, ← List.zip_eq_zipWith]
              rw [ih ds (by simpa using h) n]

lemma spliceMove_zip (d p : Nat) (l : List α) (m : List β)
    (h : l.length = m.length) :
    spliceMove d p (l.zip m) = (spliceMove d p l).zip (spliceMove d p m) := by
  unfold spliceMove
  by_cases hg : p = d ∨ p = d + 1
  · simp [hg]
  · simp only [hg, if_false]
    rw [zip_getElem? l m h d]
    cases hl : l[d]? with
    | none =>
        have hm : m[d]? = none := by
          rw [List.getElem?_eq_none_iff] at hl ⊢
          omega
        simp [hm]
    | some a =>
        obtain ⟨hd, -⟩ := List.getElem?_eq_some_iff.mp hl
        have hdm : d < m.length := by omega
        obtain ⟨b, hm⟩ : ∃ b, m[d]? = some b :=
          ⟨m[d], List.getElem?_eq_some_iff.mpr ⟨hdm, rfl⟩⟩
        rw [hm]
        dsimp only
        rw [zip_eraseIdx]
        exact zip_insertClamped _ _
          (by
            rw [List.length_eraseIdx, List.length_eraseIdx]
            simp [hd, hdm, h]) a b _

/-- C3 (amended): `reorderPages` applies the identical splice to the
page-order sequence and to the annotation-list sequence — zipping the two
sequences commutes with the splice, so annotation lists stay in lockstep
with their pages; and moving the page at index 0 to drop index 2 in a
4-page document produces page order `[p1, p0, p2, p3]` (drop indices are
insertion gaps: dropping at gap 2 inserts before the page originally at
index 2), with the annotation-list sequence permuted identically. -/
theorem C3_reorder_lockstep (d p : Nat) (s : EditorSt)
    (h : s.pageOrder.length = s.annots.length) :
    ((reorderPages d p s).pageOrder.zip (reorderPages d p s).annots =
      spliceMove d p (s.pageOrder.zip s.annots)) ∧
    (reorderPages 0 2 reorder4St).pageOrder = [2, 1, 3, 4] ∧
    (reorderPages 0 2 reorder4St).annots =
      [[annTag "1"], [annTag "0"], [annTag "2"], [annTag "3"]] := by
  refine ⟨(spliceMove_zip d p s.pageOrder s.annots h).symm, by decide, by decide⟩

/-- C3 counterexample: the claim predicts that moving the page at index 0
to drop index 2 in a 4-page document yields page order `[p1, p2, p0, p3]`
(= `[2, 3, 1, 4]` for pages numbered 1-4).  The code yields
`[2, 1, 3, 4]` = `[p1, p0, p2, p3]`. -/
theorem C3_counterexample :
    (reorderPages 0 2 reorder4St).pageOrder ≠ [2, 3, 1, 4] := by
  decide

/-- Witness for `C3_reorder_lockstep` on the concrete 4-page state. -/
theorem C3_reorder_lockstep_witness :
    reorder4St.pageOrder.length = reorder4St.annots.length ∧
    (((reorderPages 0 2 reorder4St).pageOrder.zip
        (reorderPages 0 2 reorder4St).annots =
      spliceMove 0 2 (reorder4St.pageOrder.zip reorder4St.annots)) ∧
    (reorderPages 0 2 reorder4St).pageOrder = [2, 1, 3, 4] ∧
    (reorderPages 0 2 reorder4St).annots =
      [[annTag "1"], [annTag "0"], [annTag "2"], [annTag "3"]]) :=
  ⟨by decide, C3_reorder_lockstep 0 2 reorder4St (by decide)⟩

/-- C4: whenever the resize branch applies (candidate width exceeds 10),
the image annotation afterwards satisfies
`height = width * originalAspectRatio`, so `height / width` equals the
stored original aspect ratio. -/
theorem C4_resize_aspect_locked (x y w h : ℚ) (d : String) (asp : ℚ)
    (w0 dx : ℚ) (happ : 10 < w0 + dx) :
    resizeImage w0 dx (.image x y w h d asp) =
      .image x y (w0 + dx) ((w0 + dx) * asp) d asp ∧
    ((w0 + dx) * asp) / (w0 + dx) = asp := by
  have hne : w0 + dx ≠ 0 := by positivity
  exact ⟨by simp [resizeImage, happ], by rw [mul_comm, mul_div_assoc,
    div_self hne, mul_one]⟩

/-- Witness for `C4_resize_aspect_locked` at drag-start width 30,
Δx = 0. -/
theorem C4_resize_aspect_locked_witness :
    (10 : ℚ) < 30 + 0 ∧
    (resizeImage 30 0 (.image 0 0 50 25 "img" (1 / 2)) =
      .image 0 0 (30 + 0) ((30 + 0) * (1 / 2)) "img" (1 / 2) ∧
    (((30 : ℚ) + 0) * (1 / 2)) / (30 + 0) = 1 / 2) :=
  ⟨by norm_num,
    C4_resize_aspect_locked 0 0 50 25 "img" (1 / 2) 30 0 (by norm_num)⟩

/-- C5: a pointer-move whose candidate width `dragStartWidth + dx` falls
below the 10-document-unit minimum leaves the annotation (width and
height included) unchanged, and the resize is applied — the annotation
changes at all — only when the candidate width strictly exceeds 10. -/
theorem C5_resize_min_width (a : Annot) (w0 dx : ℚ) :
    (w0 + dx < 10 → resizeImage w0 dx a = a) ∧
    (resizeImage w0 dx a ≠ a → 10 < w0 + dx) := by
  cases a with
  | image x y w h d asp =>
      constructor
      · intro hlt
        have hng : ¬ 10 < w0 + dx := by linarith
        simp [resizeImage, hng]
      · intro hne
        by_contra hng
        exact hne (by simp [resizeImage, hng])
  | text x y t size c f b w h => simp [resizeImage]
  | draw p c lw => simp [resizeImage]

/-- Witness for `C5_resize_min_width`: candidate width 5 + 2 = 7 < 10
leaves the concrete image unchanged. -/
theorem C5_resize_min_width_witness : resizeImage 5 2 cexImg = cexImg :=
  (C5_resize_min_width cexImg 5 2).1 (by norm_num)

/-- C6: finalizing a text edit whose buffer is empty or whitespace-only
routes to `cancelTextAnnotation`: no new annotation, no modification of
an existing one, and nothing pushed onto the undo or redo stacks — the
model and the history are exactly as before. -/
theorem C6_whitespace_commit_cancels (measuredW measuredH : ℚ)
    (s : EditorSt) (st : TextBuf) (hbuf : s.textEditingState = some st)
    (hws : jsTrim st.txt = "") (hedit : s.isEditingText = true) :
    finalizeTextAnnot measuredW measuredH s = cancelTextAnnot s ∧
    (finalizeTextAnnot measuredW measuredH s).annots = s.annots ∧
    (finalizeTextAnnot measuredW measuredH s).undoStack = s.undoStack ∧
    (finalizeTextAnnot measuredW measuredH s).redoStack = s.redoStack := by
  have h1 : finalizeTextAnnot measuredW measuredH s = cancelTextAnnot s := by
    unfold finalizeTextAnnot
    rw [hedit, hbuf]
    simp [hws]
  exact ⟨h1, by rw [h1]; rfl, by rw [h1]; rfl, by rw [h1]; rfl⟩

/-- Witness for `C6_whitespace_commit_cancels` on the whitespace-only
buffer `"   "`. -/
theorem C6_whitespace_commit_cancels_witness :
    wsSt.textEditingState = some ⟨10, 10, 150, "   "⟩ ∧
    jsTrim "   " = "" ∧
    wsSt.isEditingText = true ∧
    (finalizeTextAnnot 80 20 wsSt = cancelTextAnnot wsSt ∧
      (finalizeTextAnnot 80 20 wsSt).annots = wsSt.annots ∧
      (finalizeTextAnnot 80 20 wsSt).undoStack = wsSt.undoStack ∧
      (finalizeTextAnnot 80 20 wsSt).redoStack = wsSt.redoStack) :=
  ⟨rfl, by decide, rfl,
    C6_whitespace_commit_cancels 80 20 wsSt ⟨10, 10, 150, "   "⟩ rfl
      (by decide) rfl⟩

/-- C7 (amended): while at least one page has a non-empty annotation
list, rotate, duplicate and insert always show the confirmation dialog;
delete shows it provided the document has more than one page (a
single-page delete is refused by its own guard before any prompt); and
when the user declines, every one of the four operations returns the
state completely unchanged (page order, annotation lists, history stacks
and loaded document included). -/
theorem C7_organize_guard (userConfirms : Bool)
    (action : EditorSt → EditorSt) (s : EditorSt)
    (hann : s.annots.any (fun p => !p.isEmpty) = true) :
    (rotatePage userConfirms action s).2 = true ∧
    (duplicatePage userConfirms action s).2 = true ∧
    (insertPdf userConfirms action s).2 = true ∧
    (1 < s.totalPages → (deletePage userConfirms action s).2 = true) ∧
    (userConfirms = false →
      (rotatePage userConfirms action s).1 = s ∧
      (duplicatePage userConfirms action s).1 = s ∧
      (insertPdf userConfirms action s).1 = s ∧
      (deletePage userConfirms action s).1 = s) := by
  unfold rotatePage duplicatePage insertPdf deletePage
    confirmAndProceedWithOrganize
  rw [hann]
  cases userConfirms with
  | false =>
      refine ⟨rfl, rfl, rfl, fun h => ?_, fun _ => ⟨rfl, rfl, rfl, ?_⟩⟩ <;>
      · by_cases hp : s.totalPages ≤ 1 <;> simp [hp] <;> omega
  | true =>
      refine ⟨rfl, rfl, rfl, fun h => ?_, fun h => by cases h⟩
      have hp : ¬ s.totalPages ≤ 1 := by omega
      simp [hp]

/-- C7 counterexample: `deletePage` invoked on a single-page document
that carries an annotation shows no confirmation dialog at all (the
single-page guard aborts first), contradicting the claim that every
structural page operation invoked while annotations exist first prompts
for confirmation. -/
theorem C7_counterexample :
    singlePageAnnSt.annots.any (fun p => !p.isEmpty) = true ∧
    (deletePage false id singlePageAnnSt).2 = false :=
  ⟨by decide, by decide⟩

/-- Witness for `C7_organize_guard` with the user declining. -/
theorem C7_organize_guard_witness :
    singlePageAnnSt.annots.any (fun p => !p.isEmpty) = true ∧
    ((rotatePage false id singlePageAnnSt).2 = true ∧
    (duplicatePage false id singlePageAnnSt).2 = true ∧
    (insertPdf false id singlePageAnnSt).2 = true ∧
    (1 < singlePageAnnSt.totalPages →
      (deletePage false id singlePageAnnSt).2 = true) ∧
    (false = false →
      (rotatePage false id singlePageAnnSt).1 = singlePageAnnSt ∧
      (duplicatePage false id singlePageAnnSt).1 = singlePageAnnSt ∧
      (insertPdf false id singlePageAnnSt).1 = singlePageAnnSt ∧
      (deletePage false id singlePageAnnSt).1 = singlePageAnnSt)) :=
  ⟨by decide, C7_organize_guard false id singlePageAnnSt (by decide)⟩

/-- C8: with a selected annotation index `i` on a current page found at
position `pi`, the delete key removes exactly index `i` from that page's
list, pushes the pre-mutation snapshot onto the undo stack, clears the
redo stack and resets the selection; with no selection it is a no-op if
the organize view shows a single-page document, routes to `deletePage`
when the organize view is active on a loaded multi-page document, and
`deletePage` itself is refused outright, with no mutation and no prompt,
on a single-page document. -/
theorem C8_delete_key (userConfirms : Bool)
    (deleteAction : EditorSt → EditorSt) (s : EditorSt) (i pi : Nat) :
    (s.selIdx = Int.ofNat i → pageIdxOf s = some pi →
      onDeleteKeyPressed userConfirms deleteAction s =
        { s with
          undoStack := s.undoStack ++ [s.annots]
          redoStack := []
          annots := modifyIdx (fun page => page.eraseIdx i) pi s.annots
          selIdx := -1 }) ∧
    (s.selIdx < 0 → s.activeTab = Tab.organize → s.totalPages = 1 →
      onDeleteKeyPressed userConfirms deleteAction s = s) ∧
    (s.selIdx < 0 → s.activeTab = Tab.organize → s.isPdfLoaded = true →
      1 < s.totalPages →
      onDeleteKeyPressed userConfirms deleteAction s =
        (deletePage userConfirms deleteAction s).1) ∧
    (s.totalPages = 1 →
      deletePage userConfirms deleteAction s = (s, false)) := by
  refine ⟨?_, ?_, ?_, ?_⟩
  · intro hsel hpage
    unfold onDeleteKeyPressed
    have hpos : -1 < s.selIdx := by
      rw [hsel]
      exact lt_of_lt_of_le (by norm_num) (Int.natCast_nonneg i)
    rw [if_pos hpos, hpage, hsel]
    simp
  · intro hsel htab hpages
    unfold onDeleteKeyPressed
    have hneg : ¬ (-1 : Int) < s.selIdx := by omega
    have hcond : ¬ (s.activeTab = Tab.organize ∧ s.isPdfLoaded = true ∧
        1 < s.totalPages) := by
      rintro ⟨-, -, hgt⟩
      omega
    rw [if_neg hneg, if_neg hcond]
  · intro hsel htab hload hpages
    unfold onDeleteKeyPressed
    have hneg : ¬ (-1 : Int) < s.selIdx := by omega
    rw [if_neg hneg, if_pos ⟨htab, hload, hpages⟩]
  · intro hpages
    unfold deletePage
    rw [if_pos (by omega)]

/-- Witness for `C8_delete_key`: deleting the selected index 0, and the
single-page refusal of `deletePage`. -/
theorem C8_delete_key_witness :
    (onDeleteKeyPressed true id delSelSt =
      { delSelSt with
        undoStack := delSelSt.undoStack ++ [delSelSt.annots]
        redoStack := []
        annots := modifyIdx (fun page => page.eraseIdx 0) 0 delSelSt.annots
        selIdx := -1 }) ∧
    deletePage true id delSelSt = (delSelSt, false) :=
  ⟨(C8_delete_key true id delSelSt 0 0).1 rfl (by decide),
    (C8_delete_key true id delSelSt 0 0).2.2.2 rfl⟩

/-- The canvas preview's -45-degree rotation in its y-down frame and the
export's +45-degree rotation in the y-up frame are the same visual
rotation about the page center: the preview placement coincides exactly
with the export placement of a watermark whose font size is scaled by
1/1.5.  Only the font-size factor separates the two backends. -/
theorem canvas_export_watermark_scaled
    (pageW pageH scale pixelRatio size u v : ℝ)
    (hs : scale ≠ 0) (hr : pixelRatio ≠ 0) :
    canvasWatermarkPoint pageW pageH scale pixelRatio size u v =
      exportWatermarkPoint pageW pageH (size / 1.5) u v := by
  unfold canvasWatermarkPoint exportWatermarkPoint rot
  simp only [Real.cos_neg, Real.sin_neg]
  refine Prod.ext ?_ ?_ <;> · show _ = _
                              field_simp
                              ring

/-- Both placements send the text center `(u, v) = (0, 0)` to the page
center. -/
theorem watermark_center_eq (pageW pageH scale pixelRatio size : ℝ)
    (hs : scale ≠ 0) (hr : pixelRatio ≠ 0) :
    canvasWatermarkPoint pageW pageH scale pixelRatio size 0 0 =
      (pageW / 2, pageH / 2) ∧
    exportWatermarkPoint pageW pageH size 0 0 = (pageW / 2, pageH / 2) := by
  unfold canvasWatermarkPoint exportWatermarkPoint rot
  constructor <;> refine Prod.ext ?_ ?_ <;> (show _ = _; field_simp) <;> ring

/-- C9: the preview and export watermark placements are not equal
point-for-point.  At page 200x200 points, zoom scale 1.5, device pixel
ratio 1, watermark size 100 and glyph offset `(u, v) = (1, 0)`, the
preview places the point at `x = 100 + (√2/2)·100/1.5` while the export
places it at `x = 100 + (√2/2)·100`: the preview draws the watermark at
2/3 of the exported size (its font uses `size * (scale / 1.5) *
pixelRatio` pixels where size parity would need `size * scale *
pixelRatio`), while rotation direction and center do agree
(`canvas_export_watermark_scaled`, `watermark_center_eq`). -/
theorem C9_watermark_preview_export_divergence :
    canvasWatermarkPoint 200 200 1.5 1 100 1 0 ≠
      exportWatermarkPoint 200 200 100 1 0 := by
  have hc : Real.cos (Real.pi / 4) = Real.sqrt 2 / 2 := Real.cos_pi_div_four
  have h2 : (0 : ℝ) < Real.sqrt 2 := Real.sqrt_pos.mpr (by norm_num)
  intro h
  have hx := congrArg Prod.fst h
  simp [canvasWatermarkPoint, exportWatermarkPoint, rot, Real.cos_neg,
    Real.sin_neg, hc] at hx
  rw [div_eq_iff (by norm_num : (1.5 : ℝ) ≠ 0)] at hx
  nlinarith [h2]

/-- C1: for every Text annotation the exported y-coordinate is
`pageHeight - y_stored - size`, for every Image annotation it is
`pageHeight - y_stored - height`, x is unchanged, and every Draw
annotation flips each path point individually to `(x, pageHeight - y)`
with no height subtraction; in particular the path
`[(10,10),(20,10),(20,20)]` on a 100-unit-tall page exports as
`[(10,90),(20,90),(20,80)]`. -/
theorem C1_export_axis_flip :
    (∀ H x y t size c f b w h,
      exportAnnot H (Annot.text x y t size c f b w h) =
        PdfDrawOp.drawText x (H - y - size) t size (size * 1.2)) ∧
    (∀ H x y w h d r,
      exportAnnot H (Annot.image x y w h d r) =
        PdfDrawOp.drawImage x (H - y - h) w h) ∧
    (∀ H path c lw,
      exportAnnot H (Annot.draw path c lw) =
        PdfDrawOp.drawSvgPath (path.map fun p => ⟨p.x, H - p.y⟩) lw) ∧
    exportAnnot 100 (Annot.draw [⟨10, 10⟩, ⟨20, 10⟩, ⟨20, 20⟩] "red" 2) =
      PdfDrawOp.drawSvgPath [⟨10, 90⟩, ⟨20, 90⟩, ⟨20, 80⟩] 2 := by
  refine ⟨fun _ _ _ _ _ _ _ _ _ _ => rfl, fun _ _ _ _ _ _ _ => rfl,
    fun _ _ _ _ => rfl, ?_⟩
  simp [exportAnnot]
  norm_num

/-- C10: starting from the initial scale 1.5 (line 1179), every finite
sequence of zoomIn/zoomOut operations keeps the scale inside
`[0.25, 5]`; in particular the scale used as divisor when converting
pointer coordinates to document space is strictly positive. -/
theorem C10_zoom_scale_bounded (ops : List ZoomOp) :
    0.25 ≤ runZoom ops 1.5 ∧ runZoom ops 1.5 ≤ 5 ∧ 0 < runZoom ops 1.5 := by
  obtain ⟨h1, h2⟩ := runZoom_bounds ops 1.5 (by norm_num) (by norm_num)
  exact ⟨h1, h2, lt_of_lt_of_le (by norm_num) h1⟩

end OpenPdfEditor
